import Mathlib

/-!
Verification of the WebTech `IBackingStore` contract
(`src/BackingStore/BackingStore.h`).

The repository ships only the abstract interface (`IBackingStore` and its
nested interfaces `IBuffer`, `IUpdater`, `IDrawRegionIterator` are pure
virtual); the concrete backing-store engine is not part of the sources.
The data types and operation signatures below are translated from the
header; the behaviour of the engine's operations is modelled from the
specification, as indicated by the doc comments.
-/

namespace WebTech

/-- From the source header: `IBackingStore::RegionAvailability`. -/
inductive RegionAvailability where
  | NOT_AVAILABLE
  | FULLY_AVAILABLE
  | PARTIALLY_AVAILABLE
deriving DecidableEq, Repr

export RegionAvailability (NOT_AVAILABLE FULLY_AVAILABLE PARTIALLY_AVAILABLE)

/-- From the source header: `IBackingStore::UpdateMode` (the two behavioural
modes; the `_MAX` / extension-start markers carry no behaviour). -/
inductive UpdateMode where
  | UPDATE_ALL
  | UPDATE_EXPOSED_ONLY
deriving DecidableEq, Repr

export UpdateMode (UPDATE_ALL UPDATE_EXPOSED_ONLY)

/-- From the source header: `IBackingStore::UpdateQuality`. -/
inductive UpdateQuality where
  | LOW_QUALITY
  | HIGH_QUALITY
deriving DecidableEq, Repr

export UpdateQuality (LOW_QUALITY HIGH_QUALITY)

/-- From the source header: `IBackingStore::UpdateRegion`, a simple
axis-aligned rectangle `{x1, y1, x2, y2}` in scaled document coordinates.
We read it half-open: the region holds the points `(x, y)` with
`x1 ≤ x < x2` and `y1 ≤ y < y2`. -/
structure UpdateRegion where
  x1 : Int
  y1 : Int
  x2 : Int
  y2 : Int
deriving DecidableEq, Repr

/-- Membership of an integer point in an `UpdateRegion` (half-open reading). -/
def inRegion (r : UpdateRegion) (x y : Int) : Prop :=
  r.x1 ≤ x ∧ x < r.x2 ∧ r.y1 ≤ y ∧ y < r.y2

instance (r : UpdateRegion) (x y : Int) : Decidable (inRegion r x y) := by
  unfold inRegion; infer_instance

/-- A region is nonempty when both coordinate ranges are nonempty. -/
def nonemptyR (r : UpdateRegion) : Bool :=
  decide (r.x1 < r.x2 ∧ r.y1 < r.y2)

/-- Containment: `containsR a b` holds when rectangle `a` contains rectangle `b` coordinatewise. -/
def containsR (a b : UpdateRegion) : Bool :=
  decide (a.x1 ≤ b.x1 ∧ b.x2 ≤ a.x2 ∧ a.y1 ≤ b.y1 ∧ b.y2 ≤ a.y2)

/-- Intersection of two rectangles. -/
def interR (a b : UpdateRegion) : UpdateRegion :=
  ⟨max a.x1 b.x1, max a.y1 b.y1, min a.x2 b.x2, min a.y2 b.y2⟩

/-- Width of a region. -/
def widthR (r : UpdateRegion) : Int := r.x2 - r.x1

/-- Height of a region. -/
def heightR (r : UpdateRegion) : Int := r.y2 - r.y1

/-- From the source header: the `IBackingStore::Param` identifiers, as the
numeric codes of the C++ enum (extension identifiers start at `0x10000`). -/
def ALLOW_INPLACE_SCROLL : Int := 0

def ALLOW_TEXTURE_COORDINATE : Int := 1

def PRIORITY : Int := 2

def QUALITY : Int := 3

def ALLOW_PARTIAL_RENDER : Int := 4

def PARAM_EXTENSIONS_START : Int := 0x10000

/-- The calls an `IBackingStore` makes outward during its operations:
`IUpdater::createBuffer`, `IUpdater::inPlaceScroll`,
`IUpdater::renderToBackingStoreRegion` (signatures from the source header),
and `IBuffer::release` on a held buffer handle. -/
inductive UpdaterCall where
  | createBuffer (w h : Int)
  | inPlaceScroll (x y w h dx dy : Int)
  | renderToBackingStoreRegion (bufferX bufferY : Int) (region : UpdateRegion)
      (quality : UpdateQuality) (existingRegion : Bool)
  | releaseBuffer (handle : Nat)
deriving DecidableEq, Repr

/-- Modelled from the spec: the state of the backing-store engine, whose
concrete implementation is not in the sources (the header only declares the
interface).  Per §3 of the spec it holds the validity state (here: a single
valid rectangle, a tiling-policy freedom the spec grants), the held buffer
handles, the geometry of the last update, the configuration set through
`setParam`, the persistent error flag of `checkError`, and the terminal
`cleanup` flag. -/
structure BackingStoreState where
  validRegion : Option UpdateRegion
  buffers : List Nat
  nextId : Nat
  contentW : Int
  contentH : Int
  vpW : Int
  vpH : Int
  allowInplaceScroll : Bool
  quality : UpdateQuality
  params : List (Int × Int)
  errorFlag : Bool
  cleanedUp : Bool
deriving DecidableEq, Repr

/-- Modelled from the spec: `createBackingStore` (header line 148) yields a
fresh store bound to an updater, with no content, no buffers and no error. -/
def createBackingStore : BackingStoreState :=
  { validRegion := none, buffers := [], nextId := 0,
    contentW := 0, contentH := 0, vpW := 0, vpH := 0,
    allowInplaceScroll := false, quality := LOW_QUALITY, params := [],
    errorFlag := false, cleanedUp := false }

/-- Modelled from the spec: `setParam` stores the option value; identifiers
at or above the extension threshold are accepted and stored unchanged (§6).
The scroll-permission and quality options feed the engine's decisions. -/
def setParam (s : BackingStoreState) (p v : Int) : BackingStoreState :=
  let s1 := { s with params := (p, v) :: s.params }
  if p = ALLOW_INPLACE_SCROLL then { s1 with allowInplaceScroll := v ≠ 0 }
  else if p = QUALITY then
    { s1 with quality := if v = 0 then LOW_QUALITY else HIGH_QUALITY }
  else s1

/-- From the source header: `checkError` (line 122) returns the persistent error flag. -/
def checkError (s : BackingStoreState) : Bool := s.errorFlag

/-- From the source header: `hasContent` (line 123) is true iff some valid content is held. -/
def hasContent (s : BackingStoreState) : Bool := s.validRegion.isSome

/-- Modelled from the spec: `invalidate` (header line 124) clears all
validity state unconditionally; buffer handles may be retained for reuse
(§4.4), and this model retains them. -/
def invalidate (s : BackingStoreState) : BackingStoreState :=
  { s with validRegion := none }

/-- Modelled from the spec: `finish` (header line 125) stops ongoing
updates.  In the single-threaded cooperative model of §5 every `update`
call completes synchronously, so there is never a pending update and
`finish` is the identity on the state. -/
def finish (s : BackingStoreState) : BackingStoreState := s

/-- Modelled from the spec: `cleanup` (header line 121) releases every held
buffer handle via `IBuffer::release` and puts the store in a terminal,
double-call-safe state (§4.4).  The second component lists the handles on
which `release` is called. -/
def cleanup (s : BackingStoreState) : BackingStoreState × List Nat :=
  ({ s with validRegion := none, buffers := [], cleanedUp := true },
   s.buffers)

/-- Whether a point is covered by valid buffer content in state `s`. -/
def coveredPt (s : BackingStoreState) (x y : Int) : Prop :=
  match s.validRegion with
  | none => False
  | some v => inRegion v x y

instance (s : BackingStoreState) (x y : Int) : Decidable (coveredPt s x y) := by
  unfold coveredPt
  cases s.validRegion <;> infer_instance

/-- Modelled from the spec: `canDrawRegion(requested, available)` (header
line 138), the Region Availability Query of §4.2.  It is pure: a function
of the stored state that performs no rendering side effects.  The second
result is the out-parameter of the C++ signature, the available
sub-region. -/
def canDrawRegion (s : BackingStoreState) (requested : UpdateRegion) :
    RegionAvailability × UpdateRegion :=
  match s.validRegion with
  | none => (NOT_AVAILABLE, ⟨0, 0, 0, 0⟩)
  | some v =>
    let i := interR requested v
    if nonemptyR i then
      if containsR v requested then (FULLY_AVAILABLE, i)
      else (PARTIALLY_AVAILABLE, i)
    else (NOT_AVAILABLE, i)

/-- A tuple of the Draw-Region Sequence: which buffer to copy from, source
location in the buffer (`inX`, `inY`), destination on the screen
(`outX`, `outY`), and size — the accessors of
`IBackingStore::IDrawRegionIterator` (header lines 102-114). -/
structure DrawTuple where
  bufferId : Nat
  inX : Int
  inY : Int
  outX : Int
  outY : Int
  w : Int
  h : Int
deriving DecidableEq, Repr

/-- Modelled from the spec: `beginDrawRegion(region, viewportX, viewportY)`
(header line 142) enumerates the valid content inside `region`.  With the
single-rectangle validity model the maximal valid subset of `region` is one
rectangle; the buffer stores the valid region with its top-left corner at
buffer coordinate `(0, 0)`, and destination coordinates are relative to the
viewport origin. -/
def beginDrawRegion (s : BackingStoreState) (region : UpdateRegion)
    (viewportX viewportY : Int) : List DrawTuple :=
  match s.validRegion with
  | none => []
  | some v =>
    let i := interR region v
    if nonemptyR i then
      [{ bufferId := s.buffers.headD 0,
         inX := i.x1 - v.x1, inY := i.y1 - v.y1,
         outX := i.x1 - viewportX, outY := i.y1 - viewportY,
         w := widthR i, h := heightR i }]
    else []

/-- One step of the draw-region iterator: `IDrawRegionIterator::next`
(header line 113) yields the next tuple and the rest of the single-pass
sequence; past the end it yields nothing and stays at the end. -/
def iterStep : List DrawTuple → Option DrawTuple × List DrawTuple
  | [] => (none, [])
  | t :: ts => (some t, ts)

/-- The document-space rectangle a draw tuple covers on the screen, given
the viewport origin passed to `beginDrawRegion`. -/
def tupleDocRect (t : DrawTuple) (viewportX viewportY : Int) : UpdateRegion :=
  ⟨t.outX + viewportX, t.outY + viewportY,
   t.outX + viewportX + t.w, t.outY + viewportY + t.h⟩

/-- Modelled from the spec: geometry synchronisation at the start of
`update`.  The coordinates are scaled document coordinates, so a change of
the content extent or of the viewport size means the cached content no
longer matches the document scale/layout: the validity state is cleared and
the held buffer (sized for the old viewport) is released. -/
def syncGeometry (s : BackingStoreState) (vw vh cw ch : Int) :
    BackingStoreState × List UpdaterCall :=
  if s.vpW = vw ∧ s.vpH = vh ∧ s.contentW = cw ∧ s.contentH = ch then (s, [])
  else
    ({ s with validRegion := none, buffers := [],
              vpW := vw, vpH := vh, contentW := cw, contentH := ch },
     s.buffers.map (fun b => UpdaterCall.releaseBuffer b))

/-- Modelled from the spec: the fresh-render path of the Update Engine
(§4.1).  If no buffer is held, one is requested through
`IUpdater::createBuffer`; on failure the affected region remains invalid
and the persistent error flag is set (§7(a)).  Otherwise the target region
is rendered as exposed content at the buffer origin and becomes the valid
region. -/
def freshRender (s0 : BackingStoreState) (t : UpdateRegion)
    (exactB createOk : Bool) :
    BackingStoreState × Bool × List UpdaterCall :=
  if s0.buffers.isEmpty then
    if createOk then
      ({ s0 with buffers := [s0.nextId], nextId := s0.nextId + 1,
                 validRegion := some t },
       exactB,
       [UpdaterCall.createBuffer s0.vpW s0.vpH,
        UpdaterCall.renderToBackingStoreRegion 0 0 t s0.quality false])
    else
      ({ s0 with errorFlag := true }, false,
       [UpdaterCall.createBuffer s0.vpW s0.vpH])
  else
    ({ s0 with validRegion := some t }, exactB,
     [UpdaterCall.renderToBackingStoreRegion 0 0 t s0.quality false])

/-- The strip of the scroll target `t` lying outside the x-range of the old
valid region `v` (full height of `t`). -/
def scrollStripX (v t : UpdateRegion) : UpdateRegion :=
  if v.x1 ≤ t.x1 then ⟨v.x2, t.y1, t.x2, t.y2⟩ else ⟨t.x1, t.y1, v.x1, t.y2⟩

/-- The strip of the scroll target `t` inside the overlap's x-range but
outside the y-range of the old valid region `v`. -/
def scrollStripY (v t : UpdateRegion) : UpdateRegion :=
  let o := interR v t
  if v.y1 ≤ t.y1 then ⟨o.x1, v.y2, o.x2, t.y2⟩ else ⟨o.x1, t.y1, o.x2, v.y1⟩

/-- The exposed strips of a scroll step, dropping empty ones. -/
def scrollStrips (v t : UpdateRegion) : List UpdateRegion :=
  List.filter (fun r => nonemptyR r) [scrollStripX v t, scrollStripY v t]

/-- Modelled from the spec: the core of the Update Engine (§4.1), run on a
geometry-synchronised state.  The target region is the supplied one, or a
viewport-anchored choice when none is given; it is clamped to the content
bounds; an empty or viewport-exceeding result makes the call a no-op
returning `false` (§7(b)).  Otherwise the engine partitions the target into
the already-valid part, a part recoverable by `IUpdater::inPlaceScroll`
when the target is a pure translation of the valid region and scrolling is
permitted, and parts requiring fresh rendering through
`IUpdater::renderToBackingStoreRegion`. -/
def updateCore (s0 : BackingStoreState) (region : Option UpdateRegion)
    (mode : UpdateMode) (vx vy vw vh cw ch : Int)
    (contentChanged createOk : Bool) :
    BackingStoreState × Bool × List UpdaterCall :=
  let target0 := region.getD ⟨vx, vy, vx + vw, vy + vh⟩
  let t := interR target0 ⟨0, 0, cw, ch⟩
  let exactB : Bool :=
    match region with
    | none => true
    | some r => decide (0 ≤ r.x1 ∧ 0 ≤ r.y1 ∧ r.x2 ≤ cw ∧ r.y2 ≤ ch)
  if nonemptyR t then
    if t.x2 - t.x1 ≤ vw ∧ t.y2 - t.y1 ≤ vh then
      match s0.validRegion with
      | some v =>
        if containsR v t then
          if contentChanged && decide (mode = UPDATE_ALL) then
            (s0, exactB,
             [UpdaterCall.renderToBackingStoreRegion (t.x1 - v.x1)
                (t.y1 - v.y1) t s0.quality true])
          else (s0, exactB, [])
        else
          if s0.allowInplaceScroll &&
             decide (t.x2 - v.x2 = t.x1 - v.x1 ∧ t.y2 - v.y2 = t.y1 - v.y1) &&
             nonemptyR (interR v t) then
            let o := interR v t
            let dx := t.x1 - v.x1
            let dy := t.y1 - v.y1
            ({ s0 with validRegion := some t }, exactB,
             UpdaterCall.inPlaceScroll (o.x1 - v.x1) (o.y1 - v.y1)
                 (widthR o) (heightR o) (-dx) (-dy)
               :: ((scrollStrips v t).map (fun r =>
                     UpdaterCall.renderToBackingStoreRegion (r.x1 - t.x1)
                       (r.y1 - t.y1) r s0.quality false)
                   ++ (if contentChanged && decide (mode = UPDATE_ALL) then
                         [UpdaterCall.renderToBackingStoreRegion (o.x1 - t.x1)
                            (o.y1 - t.y1) o s0.quality true]
                       else [])))
          else freshRender s0 t exactB createOk
      | none => freshRender s0 t exactB createOk
    else (s0, false, [])
  else (s0, false, [])

/-- Modelled from the spec: `update` (header lines 127-135).  A store that
was cleaned up or has the persistent error flag no longer performs
rendering work (§4.4, §7); otherwise the geometry is synchronised and the
core engine runs.  The boolean result reports whether the requested region
is available for drawing afterwards; the call list records every outward
call made to the updater and to buffer handles. -/
def update (s : BackingStoreState) (region : Option UpdateRegion)
    (mode : UpdateMode) (vx vy vw vh cw ch : Int)
    (contentChanged createOk : Bool) :
    BackingStoreState × Bool × List UpdaterCall :=
  if s.cleanedUp || s.errorFlag then (s, false, [])
  else
    let sc := syncGeometry s vw vh cw ch
    let res := updateCore sc.1 region mode vx vy vw vh cw ch
                 contentChanged createOk
    (res.1, res.2.1, sc.2 ++ res.2.2)

/-- The region whose availability `update`'s boolean result reports: the
originally requested region, or the internally chosen (viewport-anchored,
bounds-clamped) region when none was supplied. -/
def requestedOrChosen (region : Option UpdateRegion)
    (vx vy vw vh cw ch : Int) : UpdateRegion :=
  match region with
  | some r => r
  | none => interR ⟨vx, vy, vx + vw, vy + vh⟩ ⟨0, 0, cw, ch⟩

/-- The well-formedness invariant of reachable engine states: an erroneous
or cleaned-up store holds no valid content (and a cleaned-up store holds no
buffers), and any valid region is nonempty, lies inside the recorded
content bounds, fits the recorded viewport, and is backed by a buffer. -/
def Wf (s : BackingStoreState) : Prop :=
  (s.errorFlag = true → s.validRegion = none) ∧
  (s.cleanedUp = true → s.validRegion = none ∧ s.buffers = []) ∧
  (match s.validRegion with
   | none => True
   | some v =>
     nonemptyR v = true ∧ 0 ≤ v.x1 ∧ 0 ≤ v.y1 ∧
     v.x2 ≤ s.contentW ∧ v.y2 ≤ s.contentH ∧
     v.x2 - v.x1 ≤ s.vpW ∧ v.y2 - v.y1 ≤ s.vpH ∧ s.buffers ≠ [])

instance (s : BackingStoreState) : Decidable (Wf s) := by
  unfold Wf
  cases s.validRegion <;> infer_instance

end WebTech

namespace WebTech

theorem nonemptyR_iff (r : UpdateRegion) :
    nonemptyR r = true ↔ (r.x1 < r.x2 ∧ r.y1 < r.y2) := by
  simp [nonemptyR]

theorem containsR_iff (a b : UpdateRegion) :
    containsR a b = true ↔
      (a.x1 ≤ b.x1 ∧ b.x2 ≤ a.x2 ∧ a.y1 ≤ b.y1 ∧ b.y2 ≤ a.y2) := by
  simp [containsR]

theorem mem_interR (a b : UpdateRegion) (x y : Int) :
    inRegion (interR a b) x y ↔ inRegion a x y ∧ inRegion b x y := by
  simp only [inRegion, interR]
  omega

theorem nonemptyR_interR_iff (a b : UpdateRegion) :
    nonemptyR (interR a b) = true ↔
      ∃ x y, inRegion a x y ∧ inRegion b x y := by
  simp only [nonemptyR, interR, inRegion, decide_eq_true_eq]
  constructor
  · intro h
    exact ⟨max a.x1 b.x1, max a.y1 b.y1, by omega, by omega⟩
  · rintro ⟨x, y, h1, h2⟩
    omega

theorem containsR_iff_pointwise (a b : UpdateRegion)
    (hb : nonemptyR b = true) :
    containsR a b = true ↔ ∀ x y, inRegion b x y → inRegion a x y := by
  simp only [nonemptyR, containsR, inRegion, decide_eq_true_eq] at *
  constructor
  · intro h x y hxy
    omega
  · intro h
    have h1 := h b.x1 b.y1 (by omega)
    have h2 := h (b.x2 - 1) (b.y2 - 1) (by omega)
    omega

theorem canDraw_none (s : BackingStoreState) (r : UpdateRegion)
    (h : s.validRegion = none) :
    (canDrawRegion s r).1 = NOT_AVAILABLE := by
  simp [canDrawRegion, h]

theorem canDraw_some (s : BackingStoreState) (r v : UpdateRegion)
    (h : s.validRegion = some v) :
    (canDrawRegion s r).1 =
      (if nonemptyR (interR r v) then
        (if containsR v r then FULLY_AVAILABLE else PARTIALLY_AVAILABLE)
       else NOT_AVAILABLE) := by
  simp only [canDrawRegion, h]
  split_ifs <;> simp_all

theorem canDraw_fully_iff (s : BackingStoreState) (r v : UpdateRegion)
    (h : s.validRegion = some v) :
    ((canDrawRegion s r).1 = FULLY_AVAILABLE ↔
      (nonemptyR (interR r v) = true ∧ containsR v r = true)) := by
  rw [canDraw_some s r v h]
  split_ifs <;> simp_all

/-- Claim C3: after `invalidate`, every region queries as `NOT_AVAILABLE`:
`invalidate` clears all validity state unconditionally while the buffer
handles are retained. -/
theorem invalidate_not_available (s : BackingStoreState) (r : UpdateRegion) :
    (canDrawRegion (invalidate s) r).1 = NOT_AVAILABLE ∧
    hasContent (invalidate s) = false ∧
    (invalidate s).buffers = s.buffers :=
  ⟨rfl, rfl, rfl⟩

/-- Claim C9: `finish` is safe to call at any time.  In this model every
`update` completes synchronously within its call, so no update is ever
pending and `finish` is a no-op that leaves the whole state — and with it
the validity bookkeeping, which only ever records fully completed
render/scroll work — unchanged. -/
theorem finish_safe_noop (s : BackingStoreState) (r : UpdateRegion) :
    finish s = s ∧
    canDrawRegion (finish s) r = canDrawRegion s r ∧
    hasContent (finish s) = hasContent s ∧
    checkError (finish s) = checkError s :=
  ⟨rfl, rfl, rfl, rfl⟩

/-- Claim C10: `cleanup` releases every held buffer handle exactly once and
puts the store in a terminal state; a second `cleanup` succeeds, releases
no handle again, and leaves the state unchanged. -/
theorem cleanup_releases_all_idempotent (s : BackingStoreState) :
    (cleanup s).2 = s.buffers ∧
    (cleanup s).1.buffers = [] ∧
    (cleanup s).1.cleanedUp = true ∧
    (cleanup s).1.validRegion = none ∧
    (cleanup (cleanup s).1).2 = [] ∧
    (cleanup (cleanup s).1).1 = (cleanup s).1 :=
  ⟨rfl, rfl, rfl, rfl, rfl, rfl⟩

end WebTech

namespace WebTech

theorem not_containsR_exists (a b : UpdateRegion) (hb : nonemptyR b = true)
    (h : containsR a b = false) :
    ∃ x y, inRegion b x y ∧ ¬ inRegion a x y := by
  by_contra hc
  push_neg at hc
  have : containsR a b = true := by
    rw [containsR_iff_pointwise a b hb]
    intro x y hxy
    by_contra hax
    exact hax (hc x y hxy)
  simp [this] at h

theorem interR_empty_no_common (a b : UpdateRegion)
    (h : nonemptyR (interR a b) = false) (x y : Int) :
    ¬ (inRegion a x y ∧ inRegion b x y) := by
  intro hxy
  have : nonemptyR (interR a b) = true :=
    (nonemptyR_interR_iff a b).2 ⟨x, y, hxy⟩
  simp [this] at h

/-- Claim C2, counterexample: the tri-state characterisation cannot hold as
stated for an empty requested region.  After a successful update the region
`{0, 0, 0, 200}` is empty, so every one of its points is (vacuously)
covered by valid buffer content, yet `canDrawRegion` does not report
`FULLY_AVAILABLE` for it (no point of it is covered either, and the query
reports `NOT_AVAILABLE`). -/
theorem canDrawRegion_empty_region_cex :
    (∀ x y, inRegion ⟨0, 0, 0, 200⟩ x y →
       coveredPt (update createBackingStore (some ⟨0, 0, 200, 200⟩) UPDATE_ALL
         0 0 200 200 1000 1000 true true).1 x y) ∧
    (canDrawRegion (update createBackingStore (some ⟨0, 0, 200, 200⟩) UPDATE_ALL
         0 0 200 200 1000 1000 true true).1 ⟨0, 0, 0, 200⟩).1 ≠
      FULLY_AVAILABLE := by
  constructor
  · intro x y hxy
    exfalso
    have hx1 : (0 : Int) ≤ x := hxy.1
    have hx2 : x < (0 : Int) := hxy.2.1
    omega
  · decide

theorem canDraw_eq_not (s : BackingStoreState) (r v : UpdateRegion)
    (h : s.validRegion = some v) (h1 : nonemptyR (interR r v) = false) :
    (canDrawRegion s r).1 = NOT_AVAILABLE := by
  simp [canDrawRegion, h, h1]

theorem canDraw_eq_fully (s : BackingStoreState) (r v : UpdateRegion)
    (h : s.validRegion = some v) (h1 : nonemptyR (interR r v) = true)
    (h2 : containsR v r = true) :
    (canDrawRegion s r).1 = FULLY_AVAILABLE := by
  simp [canDrawRegion, h, h1, h2]

theorem canDraw_eq_part (s : BackingStoreState) (r v : UpdateRegion)
    (h : s.validRegion = some v) (h1 : nonemptyR (interR r v) = true)
    (h2 : containsR v r = false) :
    (canDrawRegion s r).1 = PARTIALLY_AVAILABLE := by
  simp [canDrawRegion, h, h1, h2]

/-- Claim C2 (amended): for every nonempty requested region,
`canDrawRegion` reports `FULLY_AVAILABLE` iff every point of the region is
covered by valid buffer content, `PARTIALLY_AVAILABLE` iff at least one
point is covered and at least one is not, and `NOT_AVAILABLE` iff no point
is covered; the query is pure with respect to the stored state by
construction (a function of the state with no state result). -/
theorem canDrawRegion_classification (s : BackingStoreState) (r : UpdateRegion)
    (hne : nonemptyR r = true) :
    ((canDrawRegion s r).1 = FULLY_AVAILABLE ↔
       ∀ x y, inRegion r x y → coveredPt s x y) ∧
    ((canDrawRegion s r).1 = PARTIALLY_AVAILABLE ↔
       ((∃ x y, inRegion r x y ∧ coveredPt s x y) ∧
        (∃ x y, inRegion r x y ∧ ¬ coveredPt s x y))) ∧
    ((canDrawRegion s r).1 = NOT_AVAILABLE ↔
       ∀ x y, inRegion r x y → ¬ coveredPt s x y) := by
  obtain ⟨px, py, hp⟩ : ∃ x y, inRegion r x y := by
    rw [nonemptyR_iff] at hne
    exact ⟨r.x1, r.y1, by unfold inRegion; omega⟩
  rcases hval : s.validRegion with _ | v
  · have hncov : ∀ x y, ¬ coveredPt s x y := by
      intro x y hc
      simp only [coveredPt, hval] at hc
    rw [canDraw_none s r hval]
    refine ⟨⟨fun hc => absurd hc (by decide),
             fun hall => absurd (hall px py hp) (hncov px py)⟩,
            ⟨fun hc => absurd hc (by decide), fun hpq => ?_⟩,
            ⟨fun _ x y _ => hncov x y, fun _ => rfl⟩⟩
    obtain ⟨⟨x, y, -, hc⟩, -⟩ := hpq
    exact absurd hc (hncov x y)
  · have hcov : ∀ x y, coveredPt s x y ↔ inRegion v x y := by
      intro x y
      simp only [coveredPt, hval]
    by_cases h1 : nonemptyR (interR r v) = true
    · obtain ⟨qx, qy, hq⟩ := (nonemptyR_interR_iff r v).1 h1
      by_cases h2 : containsR v r = true
      · have hall := (containsR_iff_pointwise v r hne).1 h2
        rw [canDraw_eq_fully s r v hval h1 h2]
        refine ⟨⟨fun _ x y hxy => (hcov x y).2 (hall x y hxy), fun _ => rfl⟩,
                ⟨fun hc => absurd hc (by decide), fun hpq => ?_⟩,
                ⟨fun hc => absurd hc (by decide), fun hn => ?_⟩⟩
        · obtain ⟨-, ⟨x, y, hxy, hnc⟩⟩ := hpq
          exact absurd ((hcov x y).2 (hall x y hxy)) hnc
        · exact absurd ((hcov qx qy).2 hq.2) (hn qx qy hq.1)
      · have h2' : containsR v r = false := by simpa using h2
        obtain ⟨wx, wy, hw, hnw⟩ := not_containsR_exists v r hne h2'
        rw [canDraw_eq_part s r v hval h1 h2']
        refine ⟨⟨fun hc => absurd hc (by decide), fun hall => ?_⟩,
                ⟨fun _ => ⟨⟨qx, qy, hq.1, (hcov qx qy).2 hq.2⟩,
                           ⟨wx, wy, hw, fun hc => hnw ((hcov wx wy).1 hc)⟩⟩,
                 fun _ => rfl⟩,
                ⟨fun hc => absurd hc (by decide), fun hn => ?_⟩⟩
        · exact absurd ((hcov wx wy).1 (hall wx wy hw)) hnw
        · exact absurd ((hcov qx qy).2 hq.2) (hn qx qy hq.1)
    · have h1' : nonemptyR (interR r v) = false := by simpa using h1
      rw [canDraw_eq_not s r v hval h1']
      refine ⟨⟨fun hc => absurd hc (by decide), fun hall => ?_⟩,
              ⟨fun hc => absurd hc (by decide), fun hpq => ?_⟩,
              ⟨fun _ x y hxy hc =>
                 interR_empty_no_common r v h1' x y ⟨hxy, (hcov x y).1 hc⟩,
               fun _ => rfl⟩⟩
      · exact absurd ⟨hp, (hcov px py).1 (hall px py hp)⟩
          (interR_empty_no_common r v h1' px py)
      · obtain ⟨⟨x, y, hxy, hc⟩, -⟩ := hpq
        exact absurd ⟨hxy, (hcov x y).1 hc⟩
          (interR_empty_no_common r v h1' x y)

/-- Witness for the amended C2 classification at a concrete nonempty region
and a concrete reachable state. -/
theorem canDrawRegion_classification_witness :
    nonemptyR ⟨0, 0, 50, 50⟩ = true ∧
    (((canDrawRegion (update createBackingStore (some ⟨0, 0, 200, 200⟩)
          UPDATE_ALL 0 0 200 200 1000 1000 true true).1 ⟨0, 0, 50, 50⟩).1 =
        FULLY_AVAILABLE ↔
       ∀ x y, inRegion ⟨0, 0, 50, 50⟩ x y →
         coveredPt (update createBackingStore (some ⟨0, 0, 200, 200⟩)
           UPDATE_ALL 0 0 200 200 1000 1000 true true).1 x y) ∧
     (((canDrawRegion (update createBackingStore (some ⟨0, 0, 200, 200⟩)
          UPDATE_ALL 0 0 200 200 1000 1000 true true).1 ⟨0, 0, 50, 50⟩).1 =
        PARTIALLY_AVAILABLE ↔
       ((∃ x y, inRegion ⟨0, 0, 50, 50⟩ x y ∧
           coveredPt (update createBackingStore (some ⟨0, 0, 200, 200⟩)
             UPDATE_ALL 0 0 200 200 1000 1000 true true).1 x y) ∧
        (∃ x y, inRegion ⟨0, 0, 50, 50⟩ x y ∧
           ¬ coveredPt (update createBackingStore (some ⟨0, 0, 200, 200⟩)
             UPDATE_ALL 0 0 200 200 1000 1000 true true).1 x y))) ∧
      ((canDrawRegion (update createBackingStore (some ⟨0, 0, 200, 200⟩)
          UPDATE_ALL 0 0 200 200 1000 1000 true true).1 ⟨0, 0, 50, 50⟩).1 =
        NOT_AVAILABLE ↔
       ∀ x y, inRegion ⟨0, 0, 50, 50⟩ x y →
         ¬ coveredPt (update createBackingStore (some ⟨0, 0, 200, 200⟩)
           UPDATE_ALL 0 0 200 200 1000 1000 true true).1 x y))) :=
  ⟨by decide,
   canDrawRegion_classification _ ⟨0, 0, 50, 50⟩ (by decide)⟩

end WebTech

namespace WebTech

/-- Claim C4: the Draw-Region Sequence is a finite list (here of at most
one tuple, the single-rectangle tiling policy); its tuples' destination
rectangles cover a point of the viewport region exactly when that point is
valid, distinct tuples never overlap, the enumeration is consistent with
`canDrawRegion` on the same region (`NOT_AVAILABLE` iff the sequence is
empty, and for a nonempty region `FULLY_AVAILABLE` iff the sequence covers
the whole region), and stepping the iterator past the end yields no
further tuples. -/
theorem beginDrawRegion_spec (s : BackingStoreState) (r : UpdateRegion)
    (vx vy : Int) :
    (beginDrawRegion s r vx vy).length ≤ 1 ∧
    (∀ x y,
      (∃ t ∈ beginDrawRegion s r vx vy, inRegion (tupleDocRect t vx vy) x y)
        ↔ (inRegion r x y ∧ coveredPt s x y)) ∧
    (∀ t1 ∈ beginDrawRegion s r vx vy, ∀ t2 ∈ beginDrawRegion s r vx vy,
      t1 ≠ t2 →
        ∀ x y, ¬ (inRegion (tupleDocRect t1 vx vy) x y ∧
                  inRegion (tupleDocRect t2 vx vy) x y)) ∧
    ((canDrawRegion s r).1 = NOT_AVAILABLE ↔ beginDrawRegion s r vx vy = []) ∧
    (nonemptyR r = true →
      ((canDrawRegion s r).1 = FULLY_AVAILABLE ↔
        ∀ x y, inRegion r x y →
          ∃ t ∈ beginDrawRegion s r vx vy,
            inRegion (tupleDocRect t vx vy) x y)) ∧
    iterStep ([] : List DrawTuple) = (none, []) := by
  rcases hval : s.validRegion with _ | v
  · have hncov : ∀ x y, ¬ coveredPt s x y := by
      intro x y hc
      simp only [coveredPt, hval] at hc
    have hL : beginDrawRegion s r vx vy = [] := by
      simp [beginDrawRegion, hval]
    rw [hL, canDraw_none s r hval]
    refine ⟨by simp, ?_, by simp, by simp, ?_, rfl⟩
    · intro x y
      simp only [List.not_mem_nil]
      constructor
      · rintro ⟨t, ht, -⟩
        simp at ht
      · rintro ⟨-, hc⟩
        exact absurd hc (hncov x y)
    · intro hne
      obtain ⟨px, py, hp⟩ : ∃ x y, inRegion r x y := by
        rw [nonemptyR_iff] at hne
        exact ⟨r.x1, r.y1, by unfold inRegion; omega⟩
      constructor
      · intro hc
        exact absurd hc (by decide)
      · intro hall
        obtain ⟨t, ht, -⟩ := hall px py hp
        simp at ht
  · have hcov : ∀ x y, coveredPt s x y ↔ inRegion v x y := by
      intro x y
      simp only [coveredPt, hval]
    by_cases h1 : nonemptyR (interR r v) = true
    · have hL : beginDrawRegion s r vx vy =
        [{ bufferId := s.buffers.headD 0,
           inX := (interR r v).x1 - v.x1, inY := (interR r v).y1 - v.y1,
           outX := (interR r v).x1 - vx, outY := (interR r v).y1 - vy,
           w := widthR (interR r v), h := heightR (interR r v) }] := by
        simp [beginDrawRegion, hval, h1]
      have hrect : ∀ x y,
          inRegion (tupleDocRect
            { bufferId := s.buffers.headD 0,
              inX := (interR r v).x1 - v.x1, inY := (interR r v).y1 - v.y1,
              outX := (interR r v).x1 - vx, outY := (interR r v).y1 - vy,
              w := widthR (interR r v), h := heightR (interR r v) } vx vy) x y
            ↔ (inRegion r x y ∧ inRegion v x y) := by
        intro x y
        rw [← mem_interR]
        simp only [tupleDocRect, inRegion, widthR, heightR]
        omega
      rw [hL]
      refine ⟨by simp, ?_, ?_, ?_, ?_, rfl⟩
      · intro x y
        simp only [List.mem_singleton]
        constructor
        · rintro ⟨t, rfl, ht⟩
          exact ((hrect x y).1 ht).imp id (hcov x y).2
        · intro hxy
          exact ⟨_, rfl, (hrect x y).2 ⟨hxy.1, (hcov x y).1 hxy.2⟩⟩
      · intro t1 ht1 t2 ht2 hne12
        simp only [List.mem_singleton] at ht1 ht2
        exact absurd (ht1.trans ht2.symm) hne12
      · constructor
        · intro hc
          by_cases h2 : containsR v r = true
          · rw [canDraw_eq_fully s r v hval h1 h2] at hc
            exact absurd hc (by decide)
          · rw [canDraw_eq_part s r v hval h1 (by simpa using h2)] at hc
            exact absurd hc (by decide)
        · intro hc
          exact absurd hc (by simp)
      · intro hne
        constructor
        · intro hc x y hxy
          rw [canDraw_fully_iff s r v hval] at hc
          refine ⟨_, by simp, (hrect x y).2 ⟨hxy, ?_⟩⟩
          exact (containsR_iff_pointwise v r hne).1 hc.2 x y hxy
        · intro hall
          apply canDraw_eq_fully s r v hval h1
          rw [containsR_iff_pointwise v r hne]
          intro x y hxy
          obtain ⟨t, ht, hcv⟩ := hall x y hxy
          simp only [List.mem_singleton] at ht
          subst ht
          exact ((hrect x y).1 hcv).2
    · have h1' : nonemptyR (interR r v) = false := by simpa using h1
      have hL : beginDrawRegion s r vx vy = [] := by
        simp [beginDrawRegion, hval, h1']
      rw [hL, canDraw_eq_not s r v hval h1']
      refine ⟨by simp, ?_, by simp, by simp, ?_, rfl⟩
      · intro x y
        simp only [List.not_mem_nil]
        constructor
        · rintro ⟨t, ht, -⟩
          simp at ht
        · rintro ⟨hxy, hc⟩
          exact absurd ⟨hxy, (hcov x y).1 hc⟩ (interR_empty_no_common r v h1' x y)
      · intro hne
        obtain ⟨px, py, hp⟩ : ∃ x y, inRegion r x y := by
          rw [nonemptyR_iff] at hne
          exact ⟨r.x1, r.y1, by unfold inRegion; omega⟩
        constructor
        · intro hc
          exact absurd hc (by decide)
        · intro hall
          obtain ⟨t, ht, -⟩ := hall px py hp
          simp at ht

/-- Witness for the draw-region sequence properties at a concrete reachable
state and region. -/
theorem beginDrawRegion_spec_witness :
    (beginDrawRegion (update createBackingStore (some ⟨0, 0, 200, 200⟩)
       UPDATE_ALL 0 0 200 200 1000 1000 true true).1 ⟨0, 0, 200, 200⟩ 0 0).length ≤ 1 ∧
    (∀ x y,
      (∃ t ∈ beginDrawRegion (update createBackingStore (some ⟨0, 0, 200, 200⟩)
          UPDATE_ALL 0 0 200 200 1000 1000 true true).1 ⟨0, 0, 200, 200⟩ 0 0,
          inRegion (tupleDocRect t 0 0) x y)
        ↔ (inRegion ⟨0, 0, 200, 200⟩ x y ∧
           coveredPt (update createBackingStore (some ⟨0, 0, 200, 200⟩)
             UPDATE_ALL 0 0 200 200 1000 1000 true true).1 x y)) ∧
    (∀ t1 ∈ beginDrawRegion (update createBackingStore (some ⟨0, 0, 200, 200⟩)
        UPDATE_ALL 0 0 200 200 1000 1000 true true).1 ⟨0, 0, 200, 200⟩ 0 0,
      ∀ t2 ∈ beginDrawRegion (update createBackingStore (some ⟨0, 0, 200, 200⟩)
        UPDATE_ALL 0 0 200 200 1000 1000 true true).1 ⟨0, 0, 200, 200⟩ 0 0,
      t1 ≠ t2 →
        ∀ x y, ¬ (inRegion (tupleDocRect t1 0 0) x y ∧
                  inRegion (tupleDocRect t2 0 0) x y)) ∧
    ((canDrawRegion (update createBackingStore (some ⟨0, 0, 200, 200⟩)
        UPDATE_ALL 0 0 200 200 1000 1000 true true).1 ⟨0, 0, 200, 200⟩).1 =
          NOT_AVAILABLE ↔
      beginDrawRegion (update createBackingStore (some ⟨0, 0, 200, 200⟩)
        UPDATE_ALL 0 0 200 200 1000 1000 true true).1 ⟨0, 0, 200, 200⟩ 0 0 = []) ∧
    (nonemptyR ⟨0, 0, 200, 200⟩ = true →
      ((canDrawRegion (update createBackingStore (some ⟨0, 0, 200, 200⟩)
          UPDATE_ALL 0 0 200 200 1000 1000 true true).1 ⟨0, 0, 200, 200⟩).1 =
            FULLY_AVAILABLE ↔
        ∀ x y, inRegion ⟨0, 0, 200, 200⟩ x y →
          ∃ t ∈ beginDrawRegion (update createBackingStore (some ⟨0, 0, 200, 200⟩)
              UPDATE_ALL 0 0 200 200 1000 1000 true true).1 ⟨0, 0, 200, 200⟩ 0 0,
            inRegion (tupleDocRect t 0 0) x y)) ∧
    iterStep ([] : List DrawTuple) = (none, []) :=
  beginDrawRegion_spec _ ⟨0, 0, 200, 200⟩ 0 0

end WebTech

namespace WebTech

theorem interR_self (t : UpdateRegion) : interR t t = t := by
  simp [interR]

theorem containsR_self (t : UpdateRegion) : containsR t t = true := by
  simp [containsR]

theorem canDraw_self_fully (s' : BackingStoreState) (t : UpdateRegion)
    (hval : s'.validRegion = some t) (hne : nonemptyR t = true) :
    (canDrawRegion s' t).1 = FULLY_AVAILABLE := by
  apply canDraw_eq_fully s' t t hval
  · rw [interR_self]
    exact hne
  · exact containsR_self t

theorem syncGeometry_wf (s : BackingStoreState) (vw vh cw ch : Int)
    (hwf : Wf s) : Wf (syncGeometry s vw vh cw ch).1 := by
  unfold syncGeometry
  split_ifs with h
  · exact hwf
  · exact ⟨fun _ => rfl, fun _ => ⟨rfl, rfl⟩, trivial⟩

theorem syncGeometry_fields (s : BackingStoreState) (vw vh cw ch : Int) :
    (syncGeometry s vw vh cw ch).1.vpW = vw ∧
    (syncGeometry s vw vh cw ch).1.vpH = vh ∧
    (syncGeometry s vw vh cw ch).1.contentW = cw ∧
    (syncGeometry s vw vh cw ch).1.contentH = ch ∧
    (syncGeometry s vw vh cw ch).1.errorFlag = s.errorFlag ∧
    (syncGeometry s vw vh cw ch).1.cleanedUp = s.cleanedUp ∧
    (syncGeometry s vw vh cw ch).1.allowInplaceScroll = s.allowInplaceScroll := by
  unfold syncGeometry
  split_ifs with h
  · obtain ⟨h1, h2, h3, h4⟩ := h
    exact ⟨h1, h2, h3, h4, rfl, rfl, rfl⟩
  · exact ⟨rfl, rfl, rfl, rfl, rfl, rfl, rfl⟩

theorem syncGeometry_same (s : BackingStoreState) (vw vh cw ch : Int)
    (h1 : s.vpW = vw) (h2 : s.vpH = vh) (h3 : s.contentW = cw)
    (h4 : s.contentH = ch) :
    syncGeometry s vw vh cw ch = (s, []) := by
  unfold syncGeometry
  rw [if_pos ⟨h1, h2, h3, h4⟩]

end WebTech

namespace WebTech

theorem wf_valid_facts (s0 : BackingStoreState) (v : UpdateRegion)
    (hwf : Wf s0) (hv : s0.validRegion = some v) :
    nonemptyR v = true ∧ 0 ≤ v.x1 ∧ 0 ≤ v.y1 ∧ v.x2 ≤ s0.contentW ∧
    v.y2 ≤ s0.contentH ∧ v.x2 - v.x1 ≤ s0.vpW ∧ v.y2 - v.y1 ≤ s0.vpH ∧
    s0.buffers ≠ [] := by
  obtain ⟨-, -, h⟩ := hwf
  simp only [hv] at h
  exact h

theorem nonemptyR_interR_of_contains (v t : UpdateRegion)
    (hc : containsR v t = true) (hne : nonemptyR t = true) :
    nonemptyR (interR t v) = true := by
  rw [nonemptyR_interR_iff]
  rw [containsR_iff] at hc
  rw [nonemptyR_iff] at hne
  exact ⟨t.x1, t.y1, by unfold inRegion; omega, by unfold inRegion; omega⟩

theorem fully_after_set (s' : BackingStoreState) (r t : UpdateRegion)
    (cw ch : Int) (ht : t = interR r ⟨0, 0, cw, ch⟩)
    (hval : s'.validRegion = some t) (hne : nonemptyR t = true) :
    ((canDrawRegion s' r).1 = FULLY_AVAILABLE ↔
      (0 ≤ r.x1 ∧ 0 ≤ r.y1 ∧ r.x2 ≤ cw ∧ r.y2 ≤ ch)) := by
  subst ht
  rw [canDraw_fully_iff s' r _ hval]
  simp only [nonemptyR, containsR, interR, decide_eq_true_eq] at *
  constructor
  · rintro ⟨h1, h2⟩
    omega
  · intro hb
    omega

theorem fully_of_contains_iff (s0 : BackingStoreState) (r v t : UpdateRegion)
    (cw ch : Int) (ht : t = interR r ⟨0, 0, cw, ch⟩)
    (hval : s0.validRegion = some v)
    (hne : nonemptyR t = true)
    (h2 : containsR v t = true)
    (hvb : 0 ≤ v.x1 ∧ 0 ≤ v.y1 ∧ v.x2 ≤ cw ∧ v.y2 ≤ ch) :
    ((canDrawRegion s0 r).1 = FULLY_AVAILABLE ↔
      (0 ≤ r.x1 ∧ 0 ≤ r.y1 ∧ r.x2 ≤ cw ∧ r.y2 ≤ ch)) := by
  subst ht
  rw [canDraw_fully_iff s0 r v hval]
  simp only [nonemptyR, containsR, interR, decide_eq_true_eq] at *
  constructor
  · rintro ⟨h1, hc⟩
    omega
  · intro hb
    omega

theorem not_fully_of_empty (s0 : BackingStoreState) (C : UpdateRegion)
    (hC : nonemptyR C = false) :
    (canDrawRegion s0 C).1 ≠ FULLY_AVAILABLE := by
  intro h
  rcases hv : s0.validRegion with _ | v
  · rw [canDraw_none s0 C hv] at h
    exact absurd h (by decide)
  · rw [canDraw_fully_iff s0 C v hv] at h
    obtain ⟨h1, -⟩ := h
    simp only [nonemptyR, interR, decide_eq_true_eq,
      decide_eq_false_iff_not] at h1 hC
    rcases not_and_or.1 hC with hx | hy
    · omega
    · omega

theorem not_fully_of_oversize (s0 : BackingStoreState) (C : UpdateRegion)
    (vw vh : Int) (hwf : Wf s0) (hw : s0.vpW = vw) (hh : s0.vpH = vh)
    (hC : ¬(C.x2 - C.x1 ≤ vw ∧ C.y2 - C.y1 ≤ vh)) :
    (canDrawRegion s0 C).1 ≠ FULLY_AVAILABLE := by
  intro h
  rcases hv : s0.validRegion with _ | v
  · rw [canDraw_none s0 C hv] at h
    exact absurd h (by decide)
  · rw [canDraw_fully_iff s0 C v hv] at h
    obtain ⟨-, hc⟩ := h
    obtain ⟨-, -, -, -, -, hvw, hvh, -⟩ := wf_valid_facts s0 v hwf hv
    rw [containsR_iff] at hc
    rcases not_and_or.1 hC with hx | hy
    · omega
    · omega

theorem not_fully_of_clamp_empty (s0 : BackingStoreState) (r t : UpdateRegion)
    (cw ch : Int) (ht : t = interR r ⟨0, 0, cw, ch⟩) (hwf : Wf s0)
    (hcw : s0.contentW = cw) (hch : s0.contentH = ch)
    (hC : nonemptyR t = false) :
    (canDrawRegion s0 r).1 ≠ FULLY_AVAILABLE := by
  subst ht
  intro h
  rcases hv : s0.validRegion with _ | v
  · rw [canDraw_none s0 r hv] at h
    exact absurd h (by decide)
  · rw [canDraw_fully_iff s0 r v hv] at h
    obtain ⟨h1, hc⟩ := h
    obtain ⟨hvne, hx1, hy1, hx2, hy2, -⟩ := wf_valid_facts s0 v hwf hv
    rw [hcw] at hx2
    rw [hch] at hy2
    simp only [nonemptyR, containsR, interR, decide_eq_true_eq,
      decide_eq_false_iff_not] at *
    rcases not_and_or.1 hC with hx | hy
    · omega
    · omega

theorem not_fully_of_clamp_oversize (s0 : BackingStoreState) (r t : UpdateRegion)
    (cw ch vw vh : Int) (ht : t = interR r ⟨0, 0, cw, ch⟩) (hwf : Wf s0)
    (hw : s0.vpW = vw) (hh : s0.vpH = vh)
    (hC : ¬(t.x2 - t.x1 ≤ vw ∧ t.y2 - t.y1 ≤ vh)) :
    (canDrawRegion s0 r).1 ≠ FULLY_AVAILABLE := by
  subst ht
  intro h
  rcases hv : s0.validRegion with _ | v
  · rw [canDraw_none s0 r hv] at h
    exact absurd h (by decide)
  · rw [canDraw_fully_iff s0 r v hv] at h
    obtain ⟨-, hc⟩ := h
    obtain ⟨-, -, -, -, -, hvw, hvh, -⟩ := wf_valid_facts s0 v hwf hv
    rw [hw] at hvw
    rw [hh] at hvh
    simp only [containsR, interR, decide_eq_true_eq] at *
    omega

end WebTech

namespace WebTech

theorem updateCore_true_iff (s0 : BackingStoreState) (region : Option UpdateRegion)
    (mode : UpdateMode) (vx vy vw vh cw ch : Int) (cc co : Bool)
    (hwf : Wf s0) (hw : s0.vpW = vw) (hh : s0.vpH = vh)
    (hcw : s0.contentW = cw) (hch : s0.contentH = ch) :
    ((updateCore s0 region mode vx vy vw vh cw ch cc co).2.1 = true ↔
      (canDrawRegion (updateCore s0 region mode vx vy vw vh cw ch cc co).1
        (requestedOrChosen region vx vy vw vh cw ch)).1 = FULLY_AVAILABLE) := by
  rcases region with _ | r
  · simp only [updateCore, requestedOrChosen, Option.getD]
    set t := interR ⟨vx, vy, vx + vw, vy + vh⟩ ⟨0, 0, cw, ch⟩ with ht
    have htfit : t.x2 - t.x1 ≤ vw ∧ t.y2 - t.y1 ≤ vh := by
      rw [ht]
      simp only [interR]
      omega
    by_cases hne : nonemptyR t = true
    · rw [if_pos hne, if_pos htfit]
      rcases hv : s0.validRegion with _ | v
      · simp only [hv]
        unfold freshRender
        by_cases hbe : s0.buffers.isEmpty = true
        · rw [if_pos hbe]
          by_cases hco : co = true
          · rw [if_pos hco]
            dsimp only
            have hful := canDraw_self_fully
              { s0 with buffers := [s0.nextId], nextId := s0.nextId + 1,
                        validRegion := some t } t rfl hne
            simp [hful]
          · rw [if_neg hco]
            dsimp only
            rw [canDraw_none { s0 with errorFlag := true } t hv]
            simp
        · rw [if_neg hbe]
          dsimp only
          have hful := canDraw_self_fully
            { s0 with validRegion := some t } t rfl hne
          simp [hful]
      · simp only [hv]
        by_cases hcont : containsR v t = true
        · rw [if_pos hcont]
          have hful := canDraw_eq_fully s0 t v hv
            (nonemptyR_interR_of_contains v t hcont hne) hcont
          by_cases hcc : (cc && decide (mode = UPDATE_ALL)) = true
          · rw [if_pos hcc]
            simp [hful]
          · rw [if_neg hcc]
            simp [hful]
        · rw [if_neg hcont]
          by_cases hscr : (s0.allowInplaceScroll &&
              decide (t.x2 - v.x2 = t.x1 - v.x1 ∧ t.y2 - v.y2 = t.y1 - v.y1) &&
              nonemptyR (interR v t)) = true
          · rw [if_pos hscr]
            dsimp only
            have hful := canDraw_self_fully
              { s0 with validRegion := some t } t rfl hne
            simp [hful]
          · rw [if_neg hscr]
            unfold freshRender
            have hbne := (wf_valid_facts s0 v hwf hv).2.2.2.2.2.2.2
            rw [if_neg (by simpa [List.isEmpty_iff] using hbne)]
            dsimp only
            have hful := canDraw_self_fully
              { s0 with validRegion := some t } t rfl hne
            simp [hful]
    · rw [if_neg hne]
      dsimp only
      have hnf := not_fully_of_empty s0 t (by simpa using hne)
      simp [hnf]
  · simp only [updateCore, requestedOrChosen, Option.getD]
    set t := interR r ⟨0, 0, cw, ch⟩ with ht
    by_cases hne : nonemptyR t = true
    · by_cases hfit : t.x2 - t.x1 ≤ vw ∧ t.y2 - t.y1 ≤ vh
      · rw [if_pos hne, if_pos hfit]
        rcases hv : s0.validRegion with _ | v
        · simp only [hv]
          unfold freshRender
          by_cases hbe : s0.buffers.isEmpty = true
          · rw [if_pos hbe]
            by_cases hco : co = true
            · rw [if_pos hco]
              dsimp only
              rw [fully_after_set _ r t cw ch ht rfl hne]
              simp
            · rw [if_neg hco]
              dsimp only
              rw [canDraw_none { s0 with errorFlag := true } r hv]
              simp
          · rw [if_neg hbe]
            dsimp only
            rw [fully_after_set _ r t cw ch ht rfl hne]
            simp
        · simp only [hv]
          by_cases hcont : containsR v t = true
          · have hvb : 0 ≤ v.x1 ∧ 0 ≤ v.y1 ∧ v.x2 ≤ cw ∧ v.y2 ≤ ch := by
              obtain ⟨-, a1, a2, a3, a4, -⟩ := wf_valid_facts s0 v hwf hv
              rw [hcw] at a3
              rw [hch] at a4
              exact ⟨a1, a2, a3, a4⟩
            rw [if_pos hcont]
            have hiff := fully_of_contains_iff s0 r v t cw ch ht hv hne hcont hvb
            by_cases hcc : (cc && decide (mode = UPDATE_ALL)) = true
            · rw [if_pos hcc]
              dsimp only
              rw [hiff]
              simp
            · rw [if_neg hcc]
              dsimp only
              rw [hiff]
              simp
          · rw [if_neg hcont]
            by_cases hscr : (s0.allowInplaceScroll &&
                decide (t.x2 - v.x2 = t.x1 - v.x1 ∧ t.y2 - v.y2 = t.y1 - v.y1) &&
                nonemptyR (interR v t)) = true
            · rw [if_pos hscr]
              dsimp only
              rw [fully_after_set _ r t cw ch ht rfl hne]
              simp
            · rw [if_neg hscr]
              unfold freshRender
              have hbne := (wf_valid_facts s0 v hwf hv).2.2.2.2.2.2.2
              rw [if_neg (by simpa [List.isEmpty_iff] using hbne)]
              dsimp only
              rw [fully_after_set _ r t cw ch ht rfl hne]
              simp
      · rw [if_pos hne, if_neg hfit]
        dsimp only
        have hnf := not_fully_of_clamp_oversize s0 r t cw ch vw vh ht hwf hw hh hfit
        simp [hnf]
    · rw [if_neg hne]
      dsimp only
      have hnf := not_fully_of_clamp_empty s0 r t cw ch ht hwf hcw hch
        (by simpa using hne)
      simp [hnf]

end WebTech

namespace WebTech

/-- Claim C1: for every call to `update` — with a supplied target region or
with none, so that the engine chooses one internally — the call returns
`true` if and only if, afterwards, that region is reported
`FULLY_AVAILABLE` by the Region Availability Query `canDrawRegion`. -/
theorem update_true_iff_fully (s : BackingStoreState)
    (region : Option UpdateRegion) (mode : UpdateMode)
    (vx vy vw vh cw ch : Int) (cc co : Bool) (hwf : Wf s) :
    ((update s region mode vx vy vw vh cw ch cc co).2.1 = true ↔
      (canDrawRegion (update s region mode vx vy vw vh cw ch cc co).1
        (requestedOrChosen region vx vy vw vh cw ch)).1 = FULLY_AVAILABLE) := by
  unfold update
  by_cases hstop : (s.cleanedUp || s.errorFlag) = true
  · rw [if_pos hstop]
    have hvn : s.validRegion = none := by
      obtain ⟨h1, h2, -⟩ := hwf
      rcases (Bool.or_eq_true s.cleanedUp s.errorFlag ▸ hstop : s.cleanedUp = true ∨ s.errorFlag = true) with hc | he
      · exact (h2 hc).1
      · exact h1 he
    dsimp only
    rw [canDraw_none s _ hvn]
    simp
  · rw [if_neg hstop]
    dsimp only
    exact updateCore_true_iff _ region mode vx vy vw vh cw ch cc co
      (syncGeometry_wf s vw vh cw ch hwf)
      (syncGeometry_fields s vw vh cw ch).1
      (syncGeometry_fields s vw vh cw ch).2.1
      (syncGeometry_fields s vw vh cw ch).2.2.1
      (syncGeometry_fields s vw vh cw ch).2.2.2.1

/-- Witness for C1 on the spec's example scenario: content 1000x1000,
viewport (0,0,200,200), updating region (0,0,200,200). -/
theorem update_true_iff_fully_witness :
    Wf createBackingStore ∧
    ((update createBackingStore (some ⟨0, 0, 200, 200⟩) UPDATE_ALL
        0 0 200 200 1000 1000 true true).2.1 = true ↔
      (canDrawRegion (update createBackingStore (some ⟨0, 0, 200, 200⟩)
          UPDATE_ALL 0 0 200 200 1000 1000 true true).1
        (requestedOrChosen (some ⟨0, 0, 200, 200⟩) 0 0 200 200 1000 1000)).1 =
        FULLY_AVAILABLE) :=
  ⟨by decide, update_true_iff_fully createBackingStore (some ⟨0, 0, 200, 200⟩)
     UPDATE_ALL 0 0 200 200 1000 1000 true true (by decide)⟩

end WebTech

namespace WebTech

theorem interR_bounds_self (r : UpdateRegion) (cw ch : Int)
    (h1 : 0 ≤ r.x1) (h2 : 0 ≤ r.y1) (h3 : r.x2 ≤ cw) (h4 : r.y2 ≤ ch) :
    interR r ⟨0, 0, cw, ch⟩ = r := by
  cases r
  simp only [interR, UpdateRegion.mk.injEq] at *
  refine ⟨?_, ?_, ?_, ?_⟩ <;> omega

theorem updateCore_noop_empty (s0 : BackingStoreState) (r : UpdateRegion)
    (mode : UpdateMode) (vx vy vw vh cw ch : Int) (cc co : Bool)
    (hne : nonemptyR (interR r ⟨0, 0, cw, ch⟩) = false) :
    updateCore s0 (some r) mode vx vy vw vh cw ch cc co = (s0, false, []) := by
  simp only [updateCore, Option.getD]
  rw [if_neg (by simp [hne])]

theorem updateCore_noop_oversize (s0 : BackingStoreState) (r : UpdateRegion)
    (mode : UpdateMode) (vx vy vw vh cw ch : Int) (cc co : Bool)
    (hne : nonemptyR (interR r ⟨0, 0, cw, ch⟩) = true)
    (hfit : ¬((interR r ⟨0, 0, cw, ch⟩).x2 - (interR r ⟨0, 0, cw, ch⟩).x1 ≤ vw ∧
              (interR r ⟨0, 0, cw, ch⟩).y2 - (interR r ⟨0, 0, cw, ch⟩).y1 ≤ vh)) :
    updateCore s0 (some r) mode vx vy vw vh cw ch cc co = (s0, false, []) := by
  simp only [updateCore, Option.getD]
  rw [if_pos hne, if_neg hfit]

theorem updateCore_covers_clamp (s0 : BackingStoreState) (r : UpdateRegion)
    (mode : UpdateMode) (vx vy vw vh cw ch : Int) (cc : Bool) (hwf : Wf s0)
    (hne : nonemptyR (interR r ⟨0, 0, cw, ch⟩) = true)
    (hfit : (interR r ⟨0, 0, cw, ch⟩).x2 - (interR r ⟨0, 0, cw, ch⟩).x1 ≤ vw ∧
            (interR r ⟨0, 0, cw, ch⟩).y2 - (interR r ⟨0, 0, cw, ch⟩).y1 ≤ vh) :
    (canDrawRegion (updateCore s0 (some r) mode vx vy vw vh cw ch cc true).1
      (interR r ⟨0, 0, cw, ch⟩)).1 = FULLY_AVAILABLE := by
  simp only [updateCore, Option.getD]
  set t := interR r ⟨0, 0, cw, ch⟩ with ht
  rw [if_pos hne, if_pos hfit]
  rcases hv : s0.validRegion with _ | v
  · simp only [hv]
    unfold freshRender
    by_cases hbe : s0.buffers.isEmpty = true
    · rw [if_pos hbe, if_pos rfl]
      exact canDraw_self_fully _ t rfl hne
    · rw [if_neg hbe]
      exact canDraw_self_fully _ t rfl hne
  · simp only [hv]
    by_cases hcont : containsR v t = true
    · rw [if_pos hcont]
      have hful := canDraw_eq_fully s0 t v hv
        (nonemptyR_interR_of_contains v t hcont hne) hcont
      by_cases hcc : (cc && decide (mode = UPDATE_ALL)) = true
      · rw [if_pos hcc]
        exact hful
      · rw [if_neg hcc]
        exact hful
    · rw [if_neg hcont]
      by_cases hscr : (s0.allowInplaceScroll &&
          decide (t.x2 - v.x2 = t.x1 - v.x1 ∧ t.y2 - v.y2 = t.y1 - v.y1) &&
          nonemptyR (interR v t)) = true
      · rw [if_pos hscr]
        exact canDraw_self_fully _ t rfl hne
      · rw [if_neg hscr]
        unfold freshRender
        have hbne := (wf_valid_facts s0 v hwf hv).2.2.2.2.2.2.2
        rw [if_neg (by simpa [List.isEmpty_iff] using hbne)]
        exact canDraw_self_fully _ t rfl hne

/-- Claim C8: a requested region is clamped to the content bounds; when the
clamped region is empty (the request lies outside the content bounds) or
exceeds the viewport size, the call is a no-op returning `false` that
leaves the stored state unchanged; when the clamped region is feasible, the
engine services it and the clamped region is fully available afterwards. -/
theorem update_clamps_or_noop (s : BackingStoreState) (r : UpdateRegion)
    (mode : UpdateMode) (vx vy vw vh cw ch : Int) (cc co : Bool)
    (hwf : Wf s) (herr : s.errorFlag = false) (hcl : s.cleanedUp = false)
    (hw : s.vpW = vw) (hh : s.vpH = vh) (hcw : s.contentW = cw)
    (hch : s.contentH = ch) :
    ((nonemptyR (interR r ⟨0, 0, cw, ch⟩) = false ∨
       ¬((interR r ⟨0, 0, cw, ch⟩).x2 - (interR r ⟨0, 0, cw, ch⟩).x1 ≤ vw ∧
         (interR r ⟨0, 0, cw, ch⟩).y2 - (interR r ⟨0, 0, cw, ch⟩).y1 ≤ vh)) →
      update s (some r) mode vx vy vw vh cw ch cc co = (s, false, [])) ∧
    ((nonemptyR (interR r ⟨0, 0, cw, ch⟩) = true ∧
      (interR r ⟨0, 0, cw, ch⟩).x2 - (interR r ⟨0, 0, cw, ch⟩).x1 ≤ vw ∧
      (interR r ⟨0, 0, cw, ch⟩).y2 - (interR r ⟨0, 0, cw, ch⟩).y1 ≤ vh) →
      (canDrawRegion (update s (some r) mode vx vy vw vh cw ch cc true).1
        (interR r ⟨0, 0, cw, ch⟩)).1 = FULLY_AVAILABLE) := by
  constructor
  · intro hbad
    unfold update
    rw [if_neg (by simp [herr, hcl])]
    rw [syncGeometry_same s vw vh cw ch hw hh hcw hch]
    dsimp only
    rcases hbad with hbe | hbo
    · rw [updateCore_noop_empty s r mode vx vy vw vh cw ch cc co hbe]
      rfl
    · rcases hq : nonemptyR (interR r ⟨0, 0, cw, ch⟩) with _ | _
      · rw [updateCore_noop_empty s r mode vx vy vw vh cw ch cc co hq]
        rfl
      · rw [updateCore_noop_oversize s r mode vx vy vw vh cw ch cc co hq hbo]
        rfl
  · rintro ⟨hne, hfit⟩
    unfold update
    rw [if_neg (by simp [herr, hcl])]
    rw [syncGeometry_same s vw vh cw ch hw hh hcw hch]
    dsimp only
    exact updateCore_covers_clamp s r mode vx vy vw vh cw ch cc hwf hne hfit

/-- Witness for C8: from a store whose recorded geometry is viewport
200x200 and content 100x100, a fully out-of-bounds region is a no-op
returning `false`, while a partially out-of-range region is clamped and
serviced (the clamp becomes fully available). -/
theorem update_clamps_or_noop_witness :
    (Wf (update createBackingStore (some ⟨0, 0, 50, 50⟩) UPDATE_ALL
        0 0 200 200 100 100 true true).1 ∧
     update (update createBackingStore (some ⟨0, 0, 50, 50⟩) UPDATE_ALL
         0 0 200 200 100 100 true true).1 (some ⟨150, 150, 250, 250⟩)
         UPDATE_ALL 0 0 200 200 100 100 true true =
       ((update createBackingStore (some ⟨0, 0, 50, 50⟩) UPDATE_ALL
         0 0 200 200 100 100 true true).1, false, [])) ∧
    (canDrawRegion (update (update createBackingStore (some ⟨0, 0, 50, 50⟩)
        UPDATE_ALL 0 0 200 200 100 100 true true).1 (some ⟨50, 50, 250, 250⟩)
        UPDATE_ALL 0 0 200 200 100 100 true true).1
        (interR ⟨50, 50, 250, 250⟩ ⟨0, 0, 100, 100⟩)).1 = FULLY_AVAILABLE :=
  ⟨⟨by decide,
    (update_clamps_or_noop _ ⟨150, 150, 250, 250⟩ UPDATE_ALL
      0 0 200 200 100 100 true true (by decide) (by decide) (by decide)
      (by decide) (by decide) (by decide) (by decide)).1
      (Or.inl (by decide))⟩,
   (update_clamps_or_noop _ ⟨50, 50, 250, 250⟩ UPDATE_ALL
      0 0 200 200 100 100 true true (by decide) (by decide) (by decide)
      (by decide) (by decide) (by decide) (by decide)).2
      ⟨by decide, by decide, by decide⟩⟩

end WebTech

namespace WebTech

theorem syncGeometry_none_empty (s : BackingStoreState) (vw vh cw ch : Int)
    (hval : s.validRegion = none) (hbuf : s.buffers = []) :
    (syncGeometry s vw vh cw ch).1.validRegion = none ∧
    (syncGeometry s vw vh cw ch).1.buffers = [] := by
  unfold syncGeometry
  split_ifs with h
  · exact ⟨hval, hbuf⟩
  · exact ⟨rfl, rfl⟩

theorem updateCore_create_fail (s0 : BackingStoreState) (r : UpdateRegion)
    (mode : UpdateMode) (vx vy vw vh cw ch : Int) (cc : Bool)
    (hval : s0.validRegion = none) (hbuf : s0.buffers = [])
    (hne : nonemptyR (interR r ⟨0, 0, cw, ch⟩) = true)
    (hfit : (interR r ⟨0, 0, cw, ch⟩).x2 - (interR r ⟨0, 0, cw, ch⟩).x1 ≤ vw ∧
            (interR r ⟨0, 0, cw, ch⟩).y2 - (interR r ⟨0, 0, cw, ch⟩).y1 ≤ vh) :
    updateCore s0 (some r) mode vx vy vw vh cw ch cc false =
      ({ s0 with errorFlag := true }, false,
       [UpdaterCall.createBuffer s0.vpW s0.vpH]) := by
  simp only [updateCore, Option.getD]
  rw [if_pos hne, if_pos hfit]
  simp only [hval]
  unfold freshRender
  rw [if_pos (by simp [hbuf]), if_neg (by simp)]
  rw [hval]

/-- Claim C7: when buffer creation fails during `update`, the engine
degrades gracefully — the call still returns (the model's `update` is a
total function, so no thrown or unwound control transfer crosses the
boundary), the affected region is left invalid, the persistent error flag
observable through `checkError` is set, `update` reports `false`, and
every subsequent `update` call is a graceful no-op returning `false` with
the flag still set. -/
theorem update_create_failure (s : BackingStoreState) (r : UpdateRegion)
    (mode : UpdateMode) (vx vy vw vh cw ch : Int) (cc : Bool)
    (herr : s.errorFlag = false) (hcl : s.cleanedUp = false)
    (hval : s.validRegion = none) (hbuf : s.buffers = [])
    (hne : nonemptyR (interR r ⟨0, 0, cw, ch⟩) = true)
    (hfit : (interR r ⟨0, 0, cw, ch⟩).x2 - (interR r ⟨0, 0, cw, ch⟩).x1 ≤ vw ∧
            (interR r ⟨0, 0, cw, ch⟩).y2 - (interR r ⟨0, 0, cw, ch⟩).y1 ≤ vh) :
    (update s (some r) mode vx vy vw vh cw ch cc false).2.1 = false ∧
    checkError (update s (some r) mode vx vy vw vh cw ch cc false).1 = true ∧
    (canDrawRegion (update s (some r) mode vx vy vw vh cw ch cc false).1 r).1 =
      NOT_AVAILABLE ∧
    (∃ w h, UpdaterCall.createBuffer w h ∈
       (update s (some r) mode vx vy vw vh cw ch cc false).2.2) ∧
    (∀ region2 mode2 vx2 vy2 vw2 vh2 cw2 ch2 cc2 co2,
       update (update s (some r) mode vx vy vw vh cw ch cc false).1
           region2 mode2 vx2 vy2 vw2 vh2 cw2 ch2 cc2 co2 =
         ((update s (some r) mode vx vy vw vh cw ch cc false).1, false, [])) := by
  have hs0 := syncGeometry_none_empty s vw vh cw ch hval hbuf
  have heq : update s (some r) mode vx vy vw vh cw ch cc false =
      ({ (syncGeometry s vw vh cw ch).1 with errorFlag := true }, false,
       (syncGeometry s vw vh cw ch).2 ++
         [UpdaterCall.createBuffer (syncGeometry s vw vh cw ch).1.vpW
            (syncGeometry s vw vh cw ch).1.vpH]) := by
    unfold update
    rw [if_neg (by simp [herr, hcl])]
    dsimp only
    rw [updateCore_create_fail _ r mode vx vy vw vh cw ch cc hs0.1 hs0.2 hne hfit]
  rw [heq]
  refine ⟨rfl, rfl, ?_, ?_, ?_⟩
  · exact canDraw_none _ r hs0.1
  · exact ⟨(syncGeometry s vw vh cw ch).1.vpW,
      (syncGeometry s vw vh cw ch).1.vpH, by simp⟩
  · intro region2 mode2 vx2 vy2 vw2 vh2 cw2 ch2 cc2 co2
    unfold update
    rw [if_pos (by simp)]

/-- Witness for C7: first-ever update on a fresh store whose updater fails
to supply a buffer. -/
theorem update_create_failure_witness :
    createBackingStore.errorFlag = false ∧ createBackingStore.cleanedUp = false ∧
    createBackingStore.validRegion = none ∧ createBackingStore.buffers = [] ∧
    nonemptyR (interR ⟨0, 0, 200, 200⟩ ⟨0, 0, 1000, 1000⟩) = true ∧
    ((update createBackingStore (some ⟨0, 0, 200, 200⟩) UPDATE_ALL
        0 0 200 200 1000 1000 true false).2.1 = false ∧
     checkError (update createBackingStore (some ⟨0, 0, 200, 200⟩) UPDATE_ALL
        0 0 200 200 1000 1000 true false).1 = true ∧
     (canDrawRegion (update createBackingStore (some ⟨0, 0, 200, 200⟩)
        UPDATE_ALL 0 0 200 200 1000 1000 true false).1 ⟨0, 0, 200, 200⟩).1 =
       NOT_AVAILABLE ∧
     (∃ w h, UpdaterCall.createBuffer w h ∈
        (update createBackingStore (some ⟨0, 0, 200, 200⟩) UPDATE_ALL
           0 0 200 200 1000 1000 true false).2.2) ∧
     (∀ region2 mode2 vx2 vy2 vw2 vh2 cw2 ch2 cc2 co2,
        update (update createBackingStore (some ⟨0, 0, 200, 200⟩) UPDATE_ALL
            0 0 200 200 1000 1000 true false).1
            region2 mode2 vx2 vy2 vw2 vh2 cw2 ch2 cc2 co2 =
          ((update createBackingStore (some ⟨0, 0, 200, 200⟩) UPDATE_ALL
            0 0 200 200 1000 1000 true false).1, false, []))) :=
  ⟨rfl, rfl, rfl, rfl, by decide,
   update_create_failure createBackingStore ⟨0, 0, 200, 200⟩ UPDATE_ALL
     0 0 200 200 1000 1000 true rfl rfl rfl rfl (by decide) (by decide)⟩

end WebTech

namespace WebTech

theorem update_success_valid (s : BackingStoreState) (r : UpdateRegion)
    (mode : UpdateMode) (vx vy vw vh cw ch : Int) (cc : Bool)
    (hwf : Wf s) (herr : s.errorFlag = false) (hcl : s.cleanedUp = false)
    (hw : s.vpW = vw) (hh : s.vpH = vh) (hcw : s.contentW = cw)
    (hch : s.contentH = ch)
    (hex : 0 ≤ r.x1 ∧ 0 ≤ r.y1 ∧ r.x2 ≤ cw ∧ r.y2 ≤ ch)
    (hne : nonemptyR r = true) (hfw : r.x2 - r.x1 ≤ vw)
    (hfh : r.y2 - r.y1 ≤ vh) :
    (update s (some r) mode vx vy vw vh cw ch cc true).2.1 = true ∧
    (update s (some r) mode vx vy vw vh cw ch cc true).1.errorFlag = false ∧
    (update s (some r) mode vx vy vw vh cw ch cc true).1.cleanedUp = false ∧
    (update s (some r) mode vx vy vw vh cw ch cc true).1.vpW = vw ∧
    (update s (some r) mode vx vy vw vh cw ch cc true).1.vpH = vh ∧
    (update s (some r) mode vx vy vw vh cw ch cc true).1.contentW = cw ∧
    (update s (some r) mode vx vy vw vh cw ch cc true).1.contentH = ch ∧
    ∃ V, (update s (some r) mode vx vy vw vh cw ch cc true).1.validRegion =
        some V ∧ containsR V r = true := by
  have htr : interR r ⟨0, 0, cw, ch⟩ = r :=
    interR_bounds_self r cw ch hex.1 hex.2.1 hex.2.2.1 hex.2.2.2
  unfold update
  rw [if_neg (by simp [herr, hcl])]
  rw [syncGeometry_same s vw vh cw ch hw hh hcw hch]
  dsimp only
  simp only [updateCore, Option.getD, htr]
  rw [if_pos hne, if_pos ⟨hfw, hfh⟩]
  rcases hv : s.validRegion with _ | v
  · simp only [hv]
    unfold freshRender
    by_cases hbe : s.buffers.isEmpty = true
    · rw [if_pos hbe, if_pos rfl]
      exact ⟨by simpa using hex, herr, hcl, hw, hh, hcw, hch, r, rfl,
        containsR_self r⟩
    · rw [if_neg hbe]
      exact ⟨by simpa using hex, herr, hcl, hw, hh, hcw, hch, r, rfl,
        containsR_self r⟩
  · simp only [hv]
    by_cases hcont : containsR v r = true
    · rw [if_pos hcont]
      by_cases hcc : (cc && decide (mode = UPDATE_ALL)) = true
      · rw [if_pos hcc]
        exact ⟨by simpa using hex, herr, hcl, hw, hh, hcw, hch, v, hv, hcont⟩
      · rw [if_neg hcc]
        exact ⟨by simpa using hex, herr, hcl, hw, hh, hcw, hch, v, hv, hcont⟩
    · rw [if_neg hcont]
      by_cases hscr : (s.allowInplaceScroll &&
          decide (r.x2 - v.x2 = r.x1 - v.x1 ∧ r.y2 - v.y2 = r.y1 - v.y1) &&
          nonemptyR (interR v r)) = true
      · rw [if_pos hscr]
        exact ⟨by simpa using hex, herr, hcl, hw, hh, hcw, hch, r, rfl,
          containsR_self r⟩
      · rw [if_neg hscr]
        unfold freshRender
        have hbne := (wf_valid_facts s v hwf hv).2.2.2.2.2.2.2
        rw [if_neg (by simpa [List.isEmpty_iff] using hbne)]
        exact ⟨by simpa using hex, herr, hcl, hw, hh, hcw, hch, r, rfl,
          containsR_self r⟩

theorem update_skip_revalidation (s1 : BackingStoreState) (r V : UpdateRegion)
    (mode : UpdateMode) (vx vy vw vh cw ch : Int) (co : Bool)
    (herr : s1.errorFlag = false) (hcl : s1.cleanedUp = false)
    (hw : s1.vpW = vw) (hh : s1.vpH = vh) (hcw : s1.contentW = cw)
    (hch : s1.contentH = ch) (hv : s1.validRegion = some V)
    (hcont : containsR V r = true)
    (hex : 0 ≤ r.x1 ∧ 0 ≤ r.y1 ∧ r.x2 ≤ cw ∧ r.y2 ≤ ch)
    (hne : nonemptyR r = true) (hfw : r.x2 - r.x1 ≤ vw)
    (hfh : r.y2 - r.y1 ≤ vh) :
    update s1 (some r) mode vx vy vw vh cw ch false co = (s1, true, []) := by
  have htr : interR r ⟨0, 0, cw, ch⟩ = r :=
    interR_bounds_self r cw ch hex.1 hex.2.1 hex.2.2.1 hex.2.2.2
  unfold update
  rw [if_neg (by simp [herr, hcl])]
  rw [syncGeometry_same s1 vw vh cw ch hw hh hcw hch]
  dsimp only
  simp only [updateCore, Option.getD, htr]
  rw [if_pos hne, if_pos ⟨hfw, hfh⟩]
  simp only [hv]
  rw [if_pos hcont, if_neg (by simp)]
  simp [hex]

/-- Claim C6: after a successful `update` of region `r`, calling `update`
again with the identical region, viewport and content (so the
content-changed hint is `false`) performs no render callback invocations at
all, leaves the state unchanged, and still returns `true`; the region's
availability stays `FULLY_AVAILABLE`. -/
theorem update_idempotent (s : BackingStoreState) (r : UpdateRegion)
    (mode : UpdateMode) (vx vy vw vh cw ch : Int) (cc : Bool)
    (hwf : Wf s) (herr : s.errorFlag = false) (hcl : s.cleanedUp = false)
    (hw : s.vpW = vw) (hh : s.vpH = vh) (hcw : s.contentW = cw)
    (hch : s.contentH = ch)
    (hex : 0 ≤ r.x1 ∧ 0 ≤ r.y1 ∧ r.x2 ≤ cw ∧ r.y2 ≤ ch)
    (hne : nonemptyR r = true) (hfw : r.x2 - r.x1 ≤ vw)
    (hfh : r.y2 - r.y1 ≤ vh) :
    (update s (some r) mode vx vy vw vh cw ch cc true).2.1 = true ∧
    update (update s (some r) mode vx vy vw vh cw ch cc true).1 (some r) mode
        vx vy vw vh cw ch false true =
      ((update s (some r) mode vx vy vw vh cw ch cc true).1, true, []) ∧
    (canDrawRegion (update s (some r) mode vx vy vw vh cw ch cc true).1 r).1 =
      FULLY_AVAILABLE := by
  obtain ⟨hb, he1, hc1, hw1, hh1, hcw1, hch1, V, hV, hcont⟩ :=
    update_success_valid s r mode vx vy vw vh cw ch cc hwf herr hcl hw hh hcw
      hch hex hne hfw hfh
  refine ⟨hb, ?_, ?_⟩
  · exact update_skip_revalidation _ r V mode vx vy vw vh cw ch true he1 hc1
      hw1 hh1 hcw1 hch1 hV hcont hex hne hfw hfh
  · exact canDraw_eq_fully _ r V hV
      (nonemptyR_interR_of_contains V r hcont hne) hcont

/-- Witness for C6 on the spec's example scenario, starting from a store
whose recorded geometry matches the call. -/
theorem update_idempotent_witness :
    Wf (update createBackingStore (some ⟨0, 0, 50, 50⟩) UPDATE_ALL
      0 0 200 200 1000 1000 true true).1 ∧
    ((update (update createBackingStore (some ⟨0, 0, 50, 50⟩) UPDATE_ALL
        0 0 200 200 1000 1000 true true).1 (some ⟨0, 0, 200, 200⟩) UPDATE_ALL
        0 0 200 200 1000 1000 true true).2.1 = true ∧
     update (update (update createBackingStore (some ⟨0, 0, 50, 50⟩) UPDATE_ALL
         0 0 200 200 1000 1000 true true).1 (some ⟨0, 0, 200, 200⟩) UPDATE_ALL
         0 0 200 200 1000 1000 true true).1 (some ⟨0, 0, 200, 200⟩) UPDATE_ALL
         0 0 200 200 1000 1000 false true =
       ((update (update createBackingStore (some ⟨0, 0, 50, 50⟩) UPDATE_ALL
         0 0 200 200 1000 1000 true true).1 (some ⟨0, 0, 200, 200⟩) UPDATE_ALL
         0 0 200 200 1000 1000 true true).1, true, []) ∧
     (canDrawRegion (update (update createBackingStore (some ⟨0, 0, 50, 50⟩)
         UPDATE_ALL 0 0 200 200 1000 1000 true true).1 (some ⟨0, 0, 200, 200⟩)
         UPDATE_ALL 0 0 200 200 1000 1000 true true).1 ⟨0, 0, 200, 200⟩).1 =
       FULLY_AVAILABLE) :=
  ⟨by decide,
   update_idempotent _ ⟨0, 0, 200, 200⟩ UPDATE_ALL 0 0 200 200 1000 1000 true
     (by decide) (by decide) (by decide) (by decide) (by decide) (by decide)
     (by decide) (by decide) (by decide) (by decide) (by decide)⟩

end WebTech

namespace WebTech

theorem nonemptyR_of_mem (q : UpdateRegion) (x y : Int)
    (h : inRegion q x y) : nonemptyR q = true := by
  simp only [nonemptyR, inRegion, decide_eq_true_eq] at *
  omega

theorem scrollStrip_characterization (v r : UpdateRegion) (dx dy : Int)
    (htr : r.x1 = v.x1 + dx ∧ r.x2 = v.x2 + dx ∧ r.y1 = v.y1 + dy ∧
           r.y2 = v.y2 + dy)
    (hov : nonemptyR (interR v r) = true) (x y : Int) :
    ((inRegion (scrollStripX v r) x y ∨ inRegion (scrollStripY v r) x y) ↔
      (inRegion r x y ∧ ¬ inRegion v x y)) ∧
    ¬(inRegion (scrollStripX v r) x y ∧ inRegion (scrollStripY v r) x y) := by
  simp only [nonemptyR, interR, decide_eq_true_eq] at hov
  simp only [scrollStripX, scrollStripY, interR]
  split_ifs with h1 h2 h2 <;> simp only [inRegion] <;> omega

end WebTech

namespace WebTech

/-- Claim C5: when the valid region `v` is translated by `(dx, dy)` into
the update target `r` with in-place scrolling permitted by configuration,
the update services the overlap of old and new regions through exactly one
`IUpdater::inPlaceScroll` call (never through
`renderToBackingStoreRegion`), and the render calls it makes are fresh
(non-existing-region) renders of strips that lie entirely outside the old
valid region, cover exactly the non-overlapping part of `r`, and are
mutually disjoint. -/
theorem update_inplace_scroll (s : BackingStoreState) (v r : UpdateRegion)
    (mode : UpdateMode) (dx dy vx vy vw vh cw ch : Int) (co : Bool)
    (hwf : Wf s) (herr : s.errorFlag = false) (hcl : s.cleanedUp = false)
    (hw : s.vpW = vw) (hh : s.vpH = vh) (hcw : s.contentW = cw)
    (hch : s.contentH = ch) (hv : s.validRegion = some v)
    (hscroll : s.allowInplaceScroll = true)
    (htr : r.x1 = v.x1 + dx ∧ r.x2 = v.x2 + dx ∧ r.y1 = v.y1 + dy ∧
           r.y2 = v.y2 + dy)
    (hex : 0 ≤ r.x1 ∧ 0 ≤ r.y1 ∧ r.x2 ≤ cw ∧ r.y2 ≤ ch)
    (hov : nonemptyR (interR v r) = true)
    (hne0 : ¬(dx = 0 ∧ dy = 0)) :
    update s (some r) mode vx vy vw vh cw ch false co =
      ({ s with validRegion := some r }, true,
       UpdaterCall.inPlaceScroll ((interR v r).x1 - v.x1)
           ((interR v r).y1 - v.y1) (widthR (interR v r))
           (heightR (interR v r)) (-dx) (-dy)
         :: (scrollStrips v r).map (fun q =>
              UpdaterCall.renderToBackingStoreRegion (q.x1 - r.x1)
                (q.y1 - r.y1) q s.quality false)) ∧
    (∀ q ∈ scrollStrips v r, ∀ x y, inRegion q x y →
       inRegion r x y ∧ ¬ inRegion v x y) ∧
    (∀ x y, inRegion r x y → ¬ inRegion v x y →
       ∃ q ∈ scrollStrips v r, inRegion q x y) ∧
    (∀ q1 ∈ scrollStrips v r, ∀ q2 ∈ scrollStrips v r, q1 ≠ q2 →
       ∀ x y, ¬(inRegion q1 x y ∧ inRegion q2 x y)) := by
  obtain ⟨t1, t2, t3, t4⟩ := htr
  have hchar := fun x y =>
    scrollStrip_characterization v r dx dy ⟨t1, t2, t3, t4⟩ hov x y
  have hww := wf_valid_facts s v hwf hv
  have hner : nonemptyR r = true := by
    simp only [nonemptyR, interR, decide_eq_true_eq] at hov ⊢
    omega
  have htr' : interR r ⟨0, 0, cw, ch⟩ = r :=
    interR_bounds_self r cw ch hex.1 hex.2.1 hex.2.2.1 hex.2.2.2
  have hfw : r.x2 - r.x1 ≤ vw := by
    have h1 := hww.2.2.2.2.2.1
    rw [hw] at h1
    omega
  have hfh : r.y2 - r.y1 ≤ vh := by
    have h1 := hww.2.2.2.2.2.2.1
    rw [hh] at h1
    omega
  have hcontf : ¬ (containsR v r = true) := by
    rw [containsR_iff]
    intro hc
    rcases not_and_or.1 hne0 with hdx | hdy <;> omega
  have hscond : (s.allowInplaceScroll &&
      decide (r.x2 - v.x2 = r.x1 - v.x1 ∧ r.y2 - v.y2 = r.y1 - v.y1) &&
      nonemptyR (interR v r)) = true := by
    rw [Bool.and_eq_true, Bool.and_eq_true]
    refine ⟨⟨hscroll, ?_⟩, hov⟩
    rw [decide_eq_true_eq]
    omega
  have hdx : dx = r.x1 - v.x1 := by omega
  have hdy : dy = r.y1 - v.y1 := by omega
  subst hdx
  subst hdy
  refine ⟨?_, ?_, ?_, ?_⟩
  · unfold update
    rw [if_neg (by simp [herr, hcl])]
    rw [syncGeometry_same s vw vh cw ch hw hh hcw hch]
    dsimp only
    simp only [updateCore, Option.getD, htr']
    rw [if_pos hner, if_pos ⟨hfw, hfh⟩]
    simp only [hv]
    rw [if_neg hcontf, if_pos hscond, if_neg (by simp)]
    simp [hex]
  · intro q hq x y hqxy
    rw [scrollStrips, List.mem_filter] at hq
    have hmem := hq.1
    simp only [List.mem_cons, List.not_mem_nil, or_false] at hmem
    rcases hmem with rfl | rfl
    · exact (hchar x y).1.1 (Or.inl hqxy)
    · exact (hchar x y).1.1 (Or.inr hqxy)
  · intro x y hxy hnv
    rcases (hchar x y).1.2 ⟨hxy, hnv⟩ with hX | hY
    · refine ⟨scrollStripX v r, ?_, hX⟩
      rw [scrollStrips, List.mem_filter]
      exact ⟨by simp, nonemptyR_of_mem _ x y hX⟩
    · refine ⟨scrollStripY v r, ?_, hY⟩
      rw [scrollStrips, List.mem_filter]
      exact ⟨by simp, nonemptyR_of_mem _ x y hY⟩
  · intro q1 hq1 q2 hq2 hne12 x y hab
    obtain ⟨ha, hb⟩ := hab
    rw [scrollStrips, List.mem_filter] at hq1 hq2
    have h1 := hq1.1
    have h2 := hq2.1
    simp only [List.mem_cons, List.not_mem_nil, or_false] at h1 h2
    rcases h1 with rfl | rfl <;> rcases h2 with rfl | rfl
    · exact hne12 rfl
    · exact (hchar x y).2 ⟨ha, hb⟩
    · exact (hchar x y).2 ⟨hb, ha⟩
    · exact hne12 rfl

end WebTech

namespace WebTech

/-- Witness for C5 on the spec's scroll example: after caching
(0,0,200,200), the viewport scrolls down by 50; the overlap is scrolled in
place and only the newly exposed strip y in [200,250) is freshly
rendered. -/
theorem update_inplace_scroll_witness :
    update (update (setParam createBackingStore ALLOW_INPLACE_SCROLL 1)
        (some ⟨0, 0, 200, 200⟩) UPDATE_ALL 0 0 200 200 1000 1000 true true).1
        (some ⟨0, 50, 200, 250⟩) UPDATE_ALL 0 50 200 200 1000 1000 false true =
      ({ (update (setParam createBackingStore ALLOW_INPLACE_SCROLL 1)
            (some ⟨0, 0, 200, 200⟩) UPDATE_ALL 0 0 200 200 1000 1000 true
            true).1 with validRegion := some ⟨0, 50, 200, 250⟩ },
       true,
       UpdaterCall.inPlaceScroll
           ((interR ⟨0, 0, 200, 200⟩ ⟨0, 50, 200, 250⟩).x1 - (0 : Int))
           ((interR ⟨0, 0, 200, 200⟩ ⟨0, 50, 200, 250⟩).y1 - (0 : Int))
           (widthR (interR ⟨0, 0, 200, 200⟩ ⟨0, 50, 200, 250⟩))
           (heightR (interR ⟨0, 0, 200, 200⟩ ⟨0, 50, 200, 250⟩)) (-0) (-50)
         :: (scrollStrips ⟨0, 0, 200, 200⟩ ⟨0, 50, 200, 250⟩).map (fun q =>
              UpdaterCall.renderToBackingStoreRegion (q.x1 - 0) (q.y1 - 50) q
                (update (setParam createBackingStore ALLOW_INPLACE_SCROLL 1)
                  (some ⟨0, 0, 200, 200⟩) UPDATE_ALL 0 0 200 200 1000 1000
                  true true).1.quality false)) ∧
    (∀ q ∈ scrollStrips ⟨0, 0, 200, 200⟩ ⟨0, 50, 200, 250⟩, ∀ x y,
       inRegion q x y →
         inRegion ⟨0, 50, 200, 250⟩ x y ∧ ¬ inRegion ⟨0, 0, 200, 200⟩ x y) ∧
    (∀ x y, inRegion ⟨0, 50, 200, 250⟩ x y →
       ¬ inRegion ⟨0, 0, 200, 200⟩ x y →
       ∃ q ∈ scrollStrips ⟨0, 0, 200, 200⟩ ⟨0, 50, 200, 250⟩,
         inRegion q x y) ∧
    (∀ q1 ∈ scrollStrips ⟨0, 0, 200, 200⟩ ⟨0, 50, 200, 250⟩,
     ∀ q2 ∈ scrollStrips ⟨0, 0, 200, 200⟩ ⟨0, 50, 200, 250⟩, q1 ≠ q2 →
       ∀ x y, ¬(inRegion q1 x y ∧ inRegion q2 x y)) :=
  update_inplace_scroll _ ⟨0, 0, 200, 200⟩ ⟨0, 50, 200, 250⟩ UPDATE_ALL
    0 50 0 50 200 200 1000 1000 true
    (by decide) (by decide) (by decide) (by decide) (by decide) (by decide)
    (by decide) (by decide) (by decide) (by decide) (by decide) (by decide)
    (by decide)

end WebTech
